import Mathlib

/-!
Verification development for the real-time audio streaming and session-lifecycle
subsystem of the AI-Interview-Prep-Assistant repository.

The live-session orchestrator is the React component in
`src/services/geminiService.ts` (lines 115-396 of that file): `startMeeting`,
`endMeeting`, the session event callbacks passed to `connectLiveSession`, the
capture processor callback, and the pause/mute toggles.  The inbound PCM decoder
`decodeAudioData` is in `src/App.tsx` (lines 31-48).  The service helpers
`connectLiveSession` and `createPcmBlob` are imported by the orchestrator but
their implementations are not part of the sources; where a property depends on
them they are modelled from the specification (each such definition carries a
doc comment starting with "Modelled from the spec").

Samples are rationals, audio bytes are naturals below 256, time is rational
(seconds on the output audio clock).
-/

/-- Error taxonomy of the specification (section 7), extended with the platform
error `NotSupportedError` that `ctx.createBuffer` raises for a zero frame
count (src/App.tsx:39).  The program surfaces these as plain message strings
or runtime exceptions; the abstract constructors stand for those. -/
inductive AppError
  | MissingContextError
  | CaptureUnavailableError
  | ConnectionError
  | SessionClosedError
  | MalformedAudioError
  | NoAudioDataError
  | NotSupportedError
deriving DecidableEq, Repr

/-- Modelled from the spec: the sample quantization of `encodeFrame` /
`createPcmBlob` (the implementation is imported by the orchestrator at
src/services/geminiService.ts:227 but is not among the sources).  Each sample
`s` maps to the 16-bit integer `round (s * 32768)`, clamped to the signed
16-bit range `[-32768, 32767]` as the spec directs implementers to do. -/
def encodeSampleInt (s : ℚ) : ℤ :=
  max (-32768) (min 32767 (round (s * 32768)))

/-- Little-endian two-byte two's-complement serialization of a 16-bit value,
the wire layout `decodeAudioData` reads back. -/
def int16ToBytes (i : ℤ) : List ℕ :=
  [(i % 65536).toNat % 256, (i % 65536).toNat / 256]

/-- Modelled from the spec: `encodeFrame` quantizes every sample and serializes
the resulting 16-bit integers little-endian, in order. -/
def encodeFrame : List ℚ → List ℕ
  | [] => []
  | s :: rest => int16ToBytes (encodeSampleInt s) ++ encodeFrame rest

/-- Signed little-endian 16-bit read of a byte pair, the view
`new Int16Array(data.buffer)` takes of the byte buffer (src/App.tsx:37). -/
def toInt16 (lo hi : ℕ) : ℤ :=
  if lo + 256 * hi < 32768 then (lo + 256 * hi : ℤ)
  else (lo + 256 * hi : ℤ) - 65536

/-- Reading the byte buffer as 16-bit integers (src/App.tsx:37).  A buffer of
odd byte length cannot be viewed as an `Int16Array`; the construction fails,
which the spec's taxonomy calls `MalformedAudioError`. -/
def bytesToInt16 : List ℕ → Except AppError (List ℤ)
  | [] => .ok []
  | [_] => .error .MalformedAudioError
  | lo :: hi :: rest => (bytesToInt16 rest).map (fun l => toInt16 lo hi :: l)

/-- Sample reconstruction of `decodeAudioData` (src/App.tsx:44): each 16-bit
integer divided by 32768.0. -/
def decodeSample (i : ℤ) : ℚ := (i : ℚ) / 32768

/-- The full inbound decoding path of `decodeAudioData` for the single-channel
configuration used at the call site (src/services/geminiService.ts:182 passes
`numChannels = 1`, so the de-interleaving loop of src/App.tsx:41-46 is the
identity on the sample order).  Two failure points, in the order the source
hits them: an odd-length buffer cannot be viewed as an `Int16Array`
(src/App.tsx:37), and a zero frame count makes
`ctx.createBuffer(numChannels, frameCount, sampleRate)` throw
`NotSupportedError` (src/App.tsx:39), so an empty chunk does not decode. -/
def decodeChunk (bytes : List ℕ) : Except AppError (List ℚ) :=
  match bytesToInt16 bytes with
  | .error e => .error e
  | .ok ints =>
    if ints.length = 0 then .error .NotSupportedError
    else .ok (ints.map decodeSample)

theorem bytesToInt16_cons2 (lo hi : ℕ) (rest : List ℕ) :
    bytesToInt16 (lo :: hi :: rest) =
      (bytesToInt16 rest).map (fun l => toInt16 lo hi :: l) := rfl

theorem toInt16_int16ToBytes (i : ℤ) (h1 : -32768 ≤ i) (h2 : i ≤ 32767) :
    toInt16 ((i % 65536).toNat % 256) ((i % 65536).toNat / 256) = i := by
  have hnn : 0 ≤ i % 65536 := Int.emod_nonneg i (by norm_num)
  have hlt : i % 65536 < 65536 := Int.emod_lt_of_pos i (by norm_num)
  have hw : ((i % 65536).toNat : ℤ) = i % 65536 := Int.toNat_of_nonneg hnn
  set w : ℕ := (i % 65536).toNat with hwdef
  have hsplit : w % 256 + 256 * (w / 256) = w := Nat.mod_add_div w 256
  unfold toInt16
  rw [hsplit]
  split <;> omega

theorem bytesToInt16_int16ToBytes (i : ℤ) (rest : List ℕ)
    (h1 : -32768 ≤ i) (h2 : i ≤ 32767) :
    bytesToInt16 (int16ToBytes i ++ rest) =
      (bytesToInt16 rest).map (fun l => i :: l) := by
  show bytesToInt16 ((i % 65536).toNat % 256 :: (i % 65536).toNat / 256 :: rest) = _
  rw [bytesToInt16_cons2, toInt16_int16ToBytes i h1 h2]

theorem encodeSampleInt_lb (s : ℚ) : -32768 ≤ encodeSampleInt s :=
  le_max_left _ _

theorem encodeSampleInt_ub (s : ℚ) : encodeSampleInt s ≤ 32767 :=
  max_le (by norm_num) (min_le_left _ _)

theorem bytesToInt16_encodeFrame (samples : List ℚ) :
    bytesToInt16 (encodeFrame samples) =
      .ok (samples.map encodeSampleInt) := by
  induction samples with
  | nil => rfl
  | cons s rest ih =>
    show bytesToInt16 (int16ToBytes (encodeSampleInt s) ++ encodeFrame rest) = _
    rw [bytesToInt16_int16ToBytes _ _ (encodeSampleInt_lb s) (encodeSampleInt_ub s), ih]
    rfl

theorem decodeSample_encodeSampleInt (s : ℚ) (h1 : -1 ≤ s) (h2 : s ≤ 1) :
    |decodeSample (encodeSampleInt s) - s| ≤ 1 / 32768 := by
  have hround : |s * 32768 - (round (s * 32768) : ℚ)| ≤ 1 / 2 := abs_sub_round (s * 32768)
  rw [abs_le] at hround
  set r : ℤ := round (s * 32768) with hrdef
  have hub : (r : ℚ) ≤ 32768 + 1 / 2 := by nlinarith
  have hlb : (-32768 : ℚ) - 1 / 2 ≤ (r : ℚ) := by nlinarith
  have hubz : r ≤ 32768 := by
    have h : (r : ℚ) < ((32769 : ℤ) : ℚ) := by push_cast; linarith
    have := Int.cast_lt.mp h
    omega
  have hlbz : -32768 ≤ r := by
    have : ((-32769 : ℤ) : ℚ) < (r : ℚ) := by push_cast; linarith
    have := Int.cast_lt.mp this
    omega
  rcases le_or_lt r 32767 with hcase | hcase
  · have henc : encodeSampleInt s = r := by
      unfold encodeSampleInt
      rw [← hrdef, min_eq_right hcase, max_eq_right hlbz]
    rw [henc]
    unfold decodeSample
    rw [abs_le]
    constructor <;> linarith
  · have hreq : r = 32768 := by omega
    have henc : encodeSampleInt s = 32767 := by
      unfold encodeSampleInt
      rw [← hrdef, hreq]
      norm_num
    have hslb : (32767 : ℚ) + 1 / 2 ≤ s * 32768 := by
      have : (r : ℚ) = 32768 := by rw [hreq]; norm_num
      linarith
    rw [henc]
    unfold decodeSample
    rw [abs_le]
    constructor <;> linarith

/-- Tagged inbound session events, one constructor per callback registered with
`connectLiveSession` (src/services/geminiService.ts:178-214). -/
inductive SessionEvent
  | AudioChunk (bytes : List ℕ)
  | Interrupted
  | InputTranscriptionDelta (text : String)
  | OutputTranscriptionDelta (text : String)
  | TurnComplete
  | ErrorEvent
  | ClosedEvent
deriving DecidableEq, Repr

/-- One playback source started on the output audio context: arrival index,
start time on the output clock, and nominal duration in seconds. -/
structure Entry where
  seq : ℕ
  start : ℚ
  dur : ℚ
deriving DecidableEq, Repr

/-- State of the live-session orchestrator component
(src/services/geminiService.ts:115-250).  `capturedMuted` is the `isMuted`
value captured by the closure handed to `connectLiveSession` when the session
was created; `muted` is the current UI state the Stealth toggle flips.  The
pause flag is mirrored through a ref (`isPausedRef`), so handlers always see
its current value.  `playbackEntries` records every buffer source started on
the output context; `sentChunks` records every encoded chunk passed to
`sendRealtimeInput`; `consoleErrors` records runtime error reports. -/
structure OrchState where
  muted : Bool
  paused : Bool
  connecting : Bool
  meetingActive : Bool
  captureAcquired : Bool
  audioContextsOpen : Bool
  sessionOpen : Bool
  capturedMuted : Bool
  interviewerTranscript : String
  suggestedTranscript : String
  playbackEntries : List Entry
  playbackSeq : ℕ
  sentChunks : List (List ℕ)
  consoleErrors : List AppError
  errorMsg : Option AppError
deriving DecidableEq, Repr

/-- Initial component state: `useState(true)` for the mute flag
(src/services/geminiService.ts:120), everything else off and empty. -/
def initState : OrchState :=
  { muted := true, paused := false, connecting := false, meetingActive := false
    captureAcquired := false, audioContextsOpen := false, sessionOpen := false
    capturedMuted := true, interviewerTranscript := "", suggestedTranscript := ""
    playbackEntries := [], playbackSeq := 0, sentChunks := [], consoleErrors := []
    errorMsg := none }

/-- The `startMeeting` flow (src/services/geminiService.ts:146-240).  The empty
`experience` guard runs before anything else.  `captureOk` models whether audio
capture could be acquired at all (`getDisplayMedia` with the `getUserMedia`
fallback), `sessionOk` whether `await connectLiveSession ...` resolved, and
`wiringOk` whether the processor wiring after it succeeded.  A failure lands in
the catch block (lines 234-237), which only logs the error and sets the error
banner: it releases none of the already-acquired resources.  The session
callbacks close over the `isMuted` value of the render that ran
`startMeeting`, recorded here as `capturedMuted`. -/
def startMeeting (ctx : String) (captureOk sessionOk wiringOk : Bool)
    (s : OrchState) : OrchState :=
  if ctx = "" then
    { s with errorMsg := some .MissingContextError }
  else
    let s0 := { s with connecting := true, errorMsg := none,
                       interviewerTranscript := "", suggestedTranscript := "",
                       paused := false }
    if captureOk = false then
      { s0 with consoleErrors := s0.consoleErrors ++ [.CaptureUnavailableError],
                errorMsg := some .CaptureUnavailableError, connecting := false }
    else
      let s1 := { s0 with captureAcquired := true, audioContextsOpen := true }
      if sessionOk = false then
        { s1 with consoleErrors := s1.consoleErrors ++ [.ConnectionError],
                  errorMsg := some .ConnectionError, connecting := false }
      else
        let s2 := { s1 with sessionOpen := true, capturedMuted := s.muted }
        if wiringOk = false then
          { s2 with consoleErrors := s2.consoleErrors ++ [.ConnectionError],
                    errorMsg := some .ConnectionError, connecting := false }
        else
          { s2 with meetingActive := true, connecting := false }

/-- The `endMeeting` teardown (src/services/geminiService.ts:242-250): close the
session, stop the capture tracks, close both audio contexts, clear the
active/connecting/paused flags.  Each underlying call is a release that the
collaborator boundary accepts in any state. -/
def endMeeting (s : OrchState) : OrchState :=
  { s with sessionOpen := false, captureAcquired := false,
           audioContextsOpen := false, meetingActive := false,
           connecting := false, paused := false }

/-- Event dispatch for the callbacks registered by `startMeeting`
(src/services/geminiService.ts:178-214).  The audio handler (lines 179-187)
returns early when the captured mute flag is set, when the output context ref
is empty, or when paused; otherwise it decodes the chunk and calls
`source.start()` immediately, so the new source begins at the current output
time `now` and runs for `samples / 24000` seconds.  A decode failure rejects
the handler without touching any state (the chunk is dropped and the runtime
reports the uncaught rejection).  The interruption, transcription and
turn-complete handlers mutate only the two transcripts and all check the pause
ref first.  `onError` logs, sets the error banner and runs `endMeeting`
(lines 208-212); `onClose` runs `endMeeting` (line 213). -/
def handleEvent (now : ℚ) (s : OrchState) (e : SessionEvent) : OrchState :=
  match e with
  | .AudioChunk bytes =>
    if s.capturedMuted || !s.audioContextsOpen || s.paused then s
    else
      match decodeChunk bytes with
      | .error err => { s with consoleErrors := s.consoleErrors ++ [err] }
      | .ok samples =>
        { s with
            playbackEntries := s.playbackEntries ++
              [⟨s.playbackSeq, now, (samples.length : ℚ) / 24000⟩],
            playbackSeq := s.playbackSeq + 1 }
  | .Interrupted =>
    if s.paused then s
    else { s with suggestedTranscript := s.suggestedTranscript ++ " [Interrupted] " }
  | .InputTranscriptionDelta t =>
    if s.paused then s
    else { s with interviewerTranscript := s.interviewerTranscript ++ t }
  | .OutputTranscriptionDelta t =>
    if s.paused then s
    else { s with suggestedTranscript := s.suggestedTranscript ++ t }
  | .TurnComplete =>
    if s.paused then s else { s with interviewerTranscript := "" }
  | .ErrorEvent =>
    endMeeting { s with consoleErrors := s.consoleErrors ++ [.ConnectionError],
                        errorMsg := some .ConnectionError }
  | .ClosedEvent => endMeeting s

/-- The capture processor callback (src/services/geminiService.ts:222-228):
while paused nothing is sent; otherwise the frame is encoded and handed to
`sendRealtimeInput`. -/
def captureFrame (samples : List ℚ) (s : OrchState) : OrchState :=
  if s.paused then s
  else { s with sentChunks := s.sentChunks ++ [encodeFrame samples] }

/-- The freeze/resume toggle (src/services/geminiService.ts:358): it only flips
the pause flag. -/
def setPaused (b : Bool) (s : OrchState) : OrchState := { s with paused := b }

/-- The Stealth mute toggle (src/services/geminiService.ts:265): it flips the
current mute state only; the value captured by a running session's callbacks
is untouched. -/
def setMuted (b : Bool) (s : OrchState) : OrchState := { s with muted := b }

/-- Sequential delivery of timestamped session events, in arrival order. -/
def runEvents (l : List (ℚ × SessionEvent)) (s : OrchState) : OrchState :=
  l.foldl (fun st p => handleEvent p.1 st p.2) s

/-- Playback entries listed in creation order: arrival indices strictly
increase and start times never decrease. -/
def EntryOrdered (l : List Entry) : Prop :=
  l.Pairwise (fun a b => a.seq < b.seq ∧ a.start ≤ b.start)

instance : DecidablePred EntryOrdered := fun l => by
  unfold EntryOrdered
  infer_instance

theorem bytesToInt16_odd_len : ∀ bytes : List ℕ, bytes.length % 2 = 1 →
    bytesToInt16 bytes = .error .MalformedAudioError := by
  have key : ∀ (n : ℕ) (bytes : List ℕ), bytes.length ≤ n → bytes.length % 2 = 1 →
      bytesToInt16 bytes = .error .MalformedAudioError := by
    intro n
    induction n with
    | zero =>
      intro bytes hle hodd
      cases bytes with
      | nil => simp at hodd
      | cons a t => simp at hle
    | succ n ih =>
      intro bytes hle hodd
      match bytes with
      | [] => simp at hodd
      | [a] => rfl
      | a :: b :: rest =>
        have h1 : rest.length ≤ n := by simp at hle; omega
        have h2 : rest.length % 2 = 1 := by simp at hodd; omega
        rw [bytesToInt16_cons2, ih rest h1 h2]
        rfl
  exact fun bytes => key bytes.length bytes le_rfl

/-- Demo state: a session started with the mute toggle still in its initial
(muted) position. -/
def mutedSession : OrchState := startMeeting "c" true true true initState

/-- Demo state: a session started after switching the Stealth toggle to
unmuted, so inbound audio is played. -/
def unmutedActive : OrchState := startMeeting "c" true true true (setMuted false initState)

/-- Demo state: the unmuted session frozen by the pause toggle. -/
def pausedDemo : OrchState := setPaused true unmutedActive

/-- C5 counterexample: at the empty sample sequence the round-trip does not
succeed — `decodeAudioData` raises `NotSupportedError` for the zero-length
chunk (`ctx.createBuffer` with frame count 0, src/App.tsx:39), so no decoded
output reproduces the (empty) input. -/
theorem pcm_roundtrip_empty_cex :
    decodeChunk (encodeFrame []) = .error .NotSupportedError ∧
    ¬ ∃ decoded, decodeChunk (encodeFrame []) = Except.ok decoded ∧
      List.Forall₂ (fun d orig => |d - orig| ≤ 1 / 32768) decoded ([] : List ℚ) := by
  refine ⟨rfl, ?_⟩
  rintro ⟨decoded, hd, -⟩
  rw [show decodeChunk (encodeFrame []) = .error .NotSupportedError from rfl] at hd
  simp at hd

/-- C5 (amended): for every nonempty sequence of samples in `[-1, 1]`,
decoding the encoded frame succeeds and reproduces every sample within
quantization error `1/32768`: `decodeChunk` (src/App.tsx:31-48, single
channel) after the spec-modelled `encodeFrame` quantization.  At the empty
sequence the decoder fails instead of returning empty output. -/
theorem pcm_roundtrip (samples : List ℚ) (hne : samples ≠ [])
    (h : ∀ x ∈ samples, -1 ≤ x ∧ x ≤ 1) :
    ∃ decoded, decodeChunk (encodeFrame samples) = Except.ok decoded ∧
      List.Forall₂ (fun d orig => |d - orig| ≤ 1 / 32768) decoded samples := by
  refine ⟨samples.map (fun x => decodeSample (encodeSampleInt x)), ?_, ?_⟩
  · unfold decodeChunk
    rw [bytesToInt16_encodeFrame]
    simp [List.length_eq_zero, hne, List.map_map]
  · rw [List.forall₂_map_left_iff, List.forall₂_same]
    exact fun x hx => decodeSample_encodeSampleInt x (h x hx).1 (h x hx).2

/-- C5 witness: the round-trip at the concrete frame `[1, -1, 1/2, 0]`. -/
theorem pcm_roundtrip_witness :
    ∃ decoded, decodeChunk (encodeFrame [1, -1, 1/2, 0]) = Except.ok decoded ∧
      List.Forall₂ (fun d orig => |d - orig| ≤ 1 / 32768) decoded [1, -1, (1:ℚ)/2, 0] :=
  pcm_roundtrip [1, -1, 1/2, 0] (by simp) (by intro x hx; fin_cases hx <;> norm_num)

/-- C6 counterexample: an empty byte buffer does not decode to empty output —
the zero frame count makes `ctx.createBuffer` throw `NotSupportedError`
(src/App.tsx:39), refuting the claimed empty-input decoding. -/
theorem empty_decode_fails_cex :
    decodeChunk [] = .error .NotSupportedError ∧
    decodeChunk [] ≠ .ok [] := by
  refine ⟨rfl, ?_⟩
  intro h
  rw [show decodeChunk [] = .error .NotSupportedError from rfl] at h
  simp at h

/-- C6 (amended): an odd-length byte buffer fails to decode
(`MalformedAudioError`); any inbound chunk whose decode fails is dropped while
the session continues — only the runtime error report is added, every other
component of the state is unchanged; an empty sample sequence encodes to an
empty chunk, but an empty byte buffer does not decode to empty output: it
fails with `NotSupportedError` and is dropped the same way. -/
theorem malformed_audio_handling :
    (∀ bytes : List ℕ, bytes.length % 2 = 1 →
        decodeChunk bytes = .error .MalformedAudioError) ∧
    decodeChunk [] = .error .NotSupportedError ∧
    (∀ (now : ℚ) (s : OrchState) (bytes : List ℕ) (err : AppError),
        s.capturedMuted = false → s.audioContextsOpen = true → s.paused = false →
        decodeChunk bytes = .error err →
        handleEvent now s (.AudioChunk bytes) =
          { s with consoleErrors := s.consoleErrors ++ [err] }) ∧
    encodeFrame [] = [] := by
  have hdec : ∀ bytes : List ℕ, bytes.length % 2 = 1 →
      decodeChunk bytes = .error .MalformedAudioError := by
    intro bytes hodd
    unfold decodeChunk
    rw [bytesToInt16_odd_len bytes hodd]
  refine ⟨hdec, rfl, ?_, rfl⟩
  intro now s bytes err hm ha hp hd
  simp [handleEvent, hm, ha, hp, hd]

/-- C6 witness: the malformed single-byte chunk `[7]` and the empty chunk
against the unmuted running session. -/
theorem malformed_audio_handling_witness :
    decodeChunk [7] = .error .MalformedAudioError ∧
    decodeChunk [] = .error .NotSupportedError ∧
    handleEvent 0 unmutedActive (.AudioChunk [7]) =
      { unmutedActive with
          consoleErrors := unmutedActive.consoleErrors ++ [.MalformedAudioError] } ∧
    handleEvent 0 unmutedActive (.AudioChunk []) =
      { unmutedActive with
          consoleErrors := unmutedActive.consoleErrors ++ [.NotSupportedError] } ∧
    encodeFrame [] = [] :=
  ⟨malformed_audio_handling.1 [7] rfl,
   malformed_audio_handling.2.1,
   malformed_audio_handling.2.2.1 0 unmutedActive [7] .MalformedAudioError rfl rfl rfl rfl,
   malformed_audio_handling.2.2.1 0 unmutedActive [] .NotSupportedError rfl rfl rfl rfl,
   malformed_audio_handling.2.2.2⟩

/-- C9: `startMeeting` with empty context text fails fast: the error banner is
set to the missing-context message and nothing else changes — no capture, no
session, no transcript reset (src/services/geminiService.ts:147-150). -/
theorem start_empty_context_fails_fast (captureOk sessionOk wiringOk : Bool)
    (s : OrchState) :
    startMeeting "" captureOk sessionOk wiringOk s =
      { s with errorMsg := some .MissingContextError } := rfl

/-- C7: `endMeeting` is idempotent, never produces an error (the error banner
is untouched), and leaves capture, session and playback output released, from
any state including an already-stopped one. -/
theorem stop_idempotent_release (s : OrchState) :
    endMeeting (endMeeting s) = endMeeting s ∧
    (endMeeting s).errorMsg = s.errorMsg ∧
    (endMeeting s).captureAcquired = false ∧
    (endMeeting s).sessionOpen = false ∧
    (endMeeting s).audioContextsOpen = false :=
  ⟨rfl, rfl, rfl, rfl, rfl⟩

/-- C4: while the pause flag is set, a captured frame sends nothing, every
inbound transcription/turn/interruption/audio event leaves the state untouched
(zero transcript mutations, no new playback entry), and pausing itself never
closes the session. -/
theorem paused_suppresses_io (s : OrchState) (hp : s.paused = true) :
    (∀ samples : List ℚ, captureFrame samples s = s) ∧
    (∀ (now : ℚ) (t : String),
        handleEvent now s (.InputTranscriptionDelta t) = s ∧
        handleEvent now s (.OutputTranscriptionDelta t) = s) ∧
    (∀ now : ℚ,
        handleEvent now s .Interrupted = s ∧
        handleEvent now s .TurnComplete = s ∧
        ∀ bytes : List ℕ, handleEvent now s (.AudioChunk bytes) = s) ∧
    (setPaused true s).sessionOpen = s.sessionOpen := by
  refine ⟨?_, ?_, ?_, rfl⟩
  · intro samples
    simp [captureFrame, hp]
  · intro now t
    constructor <;> simp [handleEvent, hp]
  · intro now
    refine ⟨by simp [handleEvent, hp], by simp [handleEvent, hp], ?_⟩
    intro bytes
    simp [handleEvent, hp]

/-- C4 witness: the frozen session drops a frame, a transcription delta, a
turn-complete and an audio chunk, and stays open. -/
theorem paused_suppresses_io_witness :
    captureFrame [1/2] pausedDemo = pausedDemo ∧
    handleEvent 0 pausedDemo (.OutputTranscriptionDelta "x") = pausedDemo ∧
    handleEvent 0 pausedDemo .TurnComplete = pausedDemo ∧
    handleEvent 0 pausedDemo (.AudioChunk [0, 0]) = pausedDemo ∧
    (setPaused true pausedDemo).sessionOpen = pausedDemo.sessionOpen := by
  have h := paused_suppresses_io pausedDemo rfl
  exact ⟨h.1 [1/2], (h.2.1 0 "x").2, (h.2.2.1 0).2.1, (h.2.2.1 0).2.2 [0, 0], h.2.2.2⟩

/-- C8: in an unpaused session every output-transcription delta appends its
text to the suggested-answer transcript and every turn-complete clears the
interviewer transcript; the concrete scenario run leaves the suggested
transcript `"I led a team"` and an empty interviewer transcript. -/
theorem transcript_event_flow :
    (∀ (now : ℚ) (s : OrchState) (t : String), s.paused = false →
        (handleEvent now s (.OutputTranscriptionDelta t)).suggestedTranscript
            = s.suggestedTranscript ++ t ∧
        (handleEvent now s .TurnComplete).interviewerTranscript = "") ∧
    ((runEvents
        [(0, .OutputTranscriptionDelta "I led"), (0, .OutputTranscriptionDelta " a team"),
         (0, .TurnComplete)]
        (startMeeting "Led a team of 5 engineers..." true true true initState)).suggestedTranscript
        = "I led a team" ∧
     (runEvents
        [(0, .OutputTranscriptionDelta "I led"), (0, .OutputTranscriptionDelta " a team"),
         (0, .TurnComplete)]
        (startMeeting "Led a team of 5 engineers..." true true true initState)).interviewerTranscript
        = "") := by
  refine ⟨?_, rfl, rfl⟩
  intro now s t hp
  constructor <;> simp [handleEvent, hp]

/-- C8 witness: the append/clear equations at a concrete running session. -/
theorem transcript_event_flow_witness :
    (handleEvent 0 unmutedActive (.OutputTranscriptionDelta "hi")).suggestedTranscript
        = unmutedActive.suggestedTranscript ++ "hi" ∧
    (handleEvent 0 unmutedActive .TurnComplete).interviewerTranscript = "" :=
  transcript_event_flow.1 0 unmutedActive "hi" rfl

/-- C10: the audio handler tests the mute value captured when the session was
created.  Starting a session records the current mute flag; toggling the flag
later never changes the captured value, no event changes it either, and
whenever the captured value is set the handler plays nothing — the state is
untouched for every inbound chunk, whatever the current `muted` value is. -/
theorem stale_mute_capture :
    (∀ (ctx : String) (w : Bool) (s : OrchState), ctx ≠ "" →
        (startMeeting ctx true true w s).capturedMuted = s.muted) ∧
    (∀ (b : Bool) (s : OrchState), (setMuted b s).capturedMuted = s.capturedMuted) ∧
    (∀ (now : ℚ) (s : OrchState) (e : SessionEvent),
        (handleEvent now s e).capturedMuted = s.capturedMuted) ∧
    (∀ (now : ℚ) (s : OrchState) (bytes : List ℕ), s.capturedMuted = true →
        handleEvent now s (.AudioChunk bytes) = s) := by
  refine ⟨?_, fun b s => rfl, ?_, ?_⟩
  · intro ctx w s hne
    unfold startMeeting
    rw [if_neg hne]
    cases w <;> rfl
  · intro now s e
    cases e with
    | AudioChunk bytes =>
      simp only [handleEvent]
      split
      · rfl
      · split <;> rfl
    | Interrupted => simp only [handleEvent]; split <;> rfl
    | InputTranscriptionDelta t => simp only [handleEvent]; split <;> rfl
    | OutputTranscriptionDelta t => simp only [handleEvent]; split <;> rfl
    | TurnComplete => simp only [handleEvent]; split <;> rfl
    | ErrorEvent => rfl
    | ClosedEvent => rfl
  · intro now s bytes hm
    simp [handleEvent, hm]

/-- C10 witness: a session started muted keeps dropping inbound audio even
after the Stealth toggle is switched to unmuted. -/
theorem stale_mute_capture_witness :
    (startMeeting "c" true true true initState).capturedMuted = initState.muted ∧
    (setMuted false mutedSession).capturedMuted = mutedSession.capturedMuted ∧
    (handleEvent 0 (setMuted false mutedSession) .TurnComplete).capturedMuted
        = (setMuted false mutedSession).capturedMuted ∧
    handleEvent 0 (setMuted false mutedSession) (.AudioChunk [0, 0])
        = setMuted false mutedSession :=
  ⟨stale_mute_capture.1 "c" true initState (by decide),
   stale_mute_capture.2.1 false mutedSession,
   stale_mute_capture.2.2.1 0 (setMuted false mutedSession) .TurnComplete,
   stale_mute_capture.2.2.2 0 (setMuted false mutedSession) [0, 0] rfl⟩

/-- C3 counterexample: in the running unpaused session one inbound chunk is
still playing at the interruption instant (its end time `1/12000` lies after
the interruption time `0`), yet the interruption handler leaves playback
completely untouched — nothing stops and nothing is discarded, refuting the
claimed playback interruption. -/
theorem interruption_ignores_playback_cex :
    (handleEvent 0 unmutedActive (.AudioChunk [0, 0, 0, 0])).playbackEntries
        = [⟨0, 0, 1/12000⟩] ∧
    (handleEvent 0 unmutedActive (.AudioChunk [0, 0, 0, 0])).paused = false ∧
    (handleEvent 0 (handleEvent 0 unmutedActive (.AudioChunk [0, 0, 0, 0]))
        SessionEvent.Interrupted).playbackEntries
      = (handleEvent 0 unmutedActive (.AudioChunk [0, 0, 0, 0])).playbackEntries ∧
    ¬ ((0 : ℚ) + 1/12000 ≤ 0) := by
  refine ⟨?_, rfl, ?_, by norm_num⟩
  · simp [unmutedActive, startMeeting, setMuted, initState, handleEvent, decodeChunk,
      bytesToInt16, toInt16, decodeSample, Except.map]
    norm_num
  · simp [unmutedActive, startMeeting, setMuted, initState, handleEvent, decodeChunk,
      bytesToInt16, toInt16, decodeSample, Except.map]

/-- C3 (amended): when an interruption event arrives and the session is not
paused, the orchestrator appends the visible `" [Interrupted] "` marker to the
suggested-answer transcript and does nothing else — playback is unaffected (the
playing entry continues and nothing is discarded); when paused, nothing at all
happens. -/
theorem interruption_marker_only (now : ℚ) (s : OrchState) :
    (s.paused = false → handleEvent now s .Interrupted =
        { s with suggestedTranscript := s.suggestedTranscript ++ " [Interrupted] " }) ∧
    (s.paused = true → handleEvent now s .Interrupted = s) := by
  constructor <;> intro hp <;> simp [handleEvent, hp]

/-- C3 witness: the marker-append at the running session and the frozen no-op
at the paused session. -/
theorem interruption_marker_only_witness :
    handleEvent 0 unmutedActive SessionEvent.Interrupted =
      { unmutedActive with
          suggestedTranscript := unmutedActive.suggestedTranscript ++ " [Interrupted] " } ∧
    handleEvent 0 pausedDemo SessionEvent.Interrupted = pausedDemo :=
  ⟨(interruption_marker_only 0 unmutedActive).1 rfl,
   (interruption_marker_only 0 pausedDemo).2 rfl⟩

/-- C2 counterexample: starting from the inactive initial state with capture
succeeding and the session open failing, `startMeeting` surfaces the
connection error while the capture stream and the audio contexts are still
held — the claimed unwinding of partial acquisitions does not happen. -/
theorem start_failure_leak_cex :
    (startMeeting "c" true false true initState).errorMsg
        = some AppError.ConnectionError ∧
    (startMeeting "c" true false true initState).captureAcquired = true ∧
    (startMeeting "c" true false true initState).audioContextsOpen = true :=
  ⟨rfl, rfl, rfl⟩

/-- C2 (amended): when a step after the first resource acquisition fails
during `startMeeting`, the error is surfaced (and logged) but no
previously-acquired resource is released: the capture stream and the audio
contexts stay held, and if the failure happens after the session opened the
session handle stays open too.  Release happens only through a later
`endMeeting`. -/
theorem start_failure_keeps_resources (ctx : String) (w : Bool) (s : OrchState)
    (hne : ctx ≠ "") :
    ((startMeeting ctx true false w s).errorMsg = some AppError.ConnectionError ∧
     (startMeeting ctx true false w s).captureAcquired = true ∧
     (startMeeting ctx true false w s).audioContextsOpen = true ∧
     (startMeeting ctx true false w s).sessionOpen = s.sessionOpen) ∧
    ((startMeeting ctx true true false s).errorMsg = some AppError.ConnectionError ∧
     (startMeeting ctx true true false s).captureAcquired = true ∧
     (startMeeting ctx true true false s).audioContextsOpen = true ∧
     (startMeeting ctx true true false s).sessionOpen = true) := by
  simp only [startMeeting, if_neg hne]
  exact ⟨⟨rfl, rfl, rfl, rfl⟩, ⟨rfl, rfl, rfl, rfl⟩⟩

/-- C2 witness: both failure points at the concrete inactive start state. -/
theorem start_failure_keeps_resources_witness :
    ((startMeeting "c" true false true initState).errorMsg
        = some AppError.ConnectionError ∧
     (startMeeting "c" true false true initState).captureAcquired = true ∧
     (startMeeting "c" true false true initState).audioContextsOpen = true ∧
     (startMeeting "c" true false true initState).sessionOpen = initState.sessionOpen) ∧
    ((startMeeting "c" true true false initState).errorMsg
        = some AppError.ConnectionError ∧
     (startMeeting "c" true true false initState).captureAcquired = true ∧
     (startMeeting "c" true true false initState).audioContextsOpen = true ∧
     (startMeeting "c" true true false initState).sessionOpen = true) :=
  start_failure_keeps_resources "c" true initState (by decide)

/-- Invariant tying a state to the output clock: playback entries are ordered
by arrival (index and start time) and every recorded entry started no later
than `t`, with indices below the next index counter. -/
def PlaybackInv (t : ℚ) (s : OrchState) : Prop :=
  EntryOrdered s.playbackEntries ∧
  ∀ x ∈ s.playbackEntries, x.seq < s.playbackSeq ∧ x.start ≤ t

theorem playbackInv_mono {t now : ℚ} {s : OrchState} (hts : t ≤ now)
    (h : PlaybackInv t s) : PlaybackInv now s :=
  ⟨h.1, fun x hx => ⟨(h.2 x hx).1, (h.2 x hx).2.trans hts⟩⟩

theorem handleEvent_playbackInv (now t : ℚ) (s : OrchState) (e : SessionEvent)
    (hts : t ≤ now) (h : PlaybackInv t s) :
    PlaybackInv now (handleEvent now s e) := by
  have hmono := playbackInv_mono hts h
  obtain ⟨h1, h2⟩ := hmono
  cases e with
  | AudioChunk bytes =>
    simp only [handleEvent]
    split
    · exact ⟨h1, h2⟩
    · split
      · exact ⟨h1, h2⟩
      · constructor
        · refine List.pairwise_append.mpr ⟨h1, by simp [EntryOrdered], ?_⟩
          intro a ha b hb
          rw [List.mem_singleton] at hb
          subst hb
          exact ⟨(h2 a ha).1, (h2 a ha).2⟩
        · intro x hx
          rcases List.mem_append.mp hx with hx | hx
          · exact ⟨Nat.lt_succ_of_lt (h2 x hx).1, (h2 x hx).2⟩
          · rw [List.mem_singleton] at hx
            subst hx
            exact ⟨Nat.lt_succ_self _, le_refl now⟩
  | Interrupted =>
    simp only [handleEvent]
    split <;> exact ⟨h1, h2⟩
  | InputTranscriptionDelta t2 =>
    simp only [handleEvent]
    split <;> exact ⟨h1, h2⟩
  | OutputTranscriptionDelta t2 =>
    simp only [handleEvent]
    split <;> exact ⟨h1, h2⟩
  | TurnComplete =>
    simp only [handleEvent]
    split <;> exact ⟨h1, h2⟩
  | ErrorEvent => exact ⟨h1, h2⟩
  | ClosedEvent => exact ⟨h1, h2⟩

theorem runEvents_cons (p : ℚ × SessionEvent) (l : List (ℚ × SessionEvent))
    (s : OrchState) :
    runEvents (p :: l) s = runEvents l (handleEvent p.1 s p.2) := rfl

theorem runEvents_playbackInv :
    ∀ (l : List (ℚ × SessionEvent)) (s : OrchState) (t : ℚ),
      List.Chain (fun a b => a ≤ b) t (l.map Prod.fst) → PlaybackInv t s →
      EntryOrdered (runEvents l s).playbackEntries := by
  intro l
  induction l with
  | nil => exact fun s t _ h => h.1
  | cons p rest ih =>
    intro s t hchain hinv
    rw [List.map_cons, List.chain_cons] at hchain
    rw [runEvents_cons]
    exact ih (handleEvent p.1 s p.2) p.1 hchain.2
      (handleEvent_playbackInv p.1 t s p.2 hchain.1 hinv)

/-- C1 counterexample: two audio chunks delivered in the same output-clock
instant to the running unpaused session (no interruption event anywhere in the
run) both start at time 0, so the second entry begins before the first
entry's `1/24000`-second output completes — the claimed no-overlap ordering is
violated. -/
theorem playback_overlap_cex :
    ¬ ((handleEvent 0 (handleEvent 0 unmutedActive (.AudioChunk [0, 0]))
        (.AudioChunk [0, 0])).playbackEntries.Pairwise
      fun a b => a.start + a.dur ≤ b.start) := by
  simp [unmutedActive, startMeeting, setMuted, initState, handleEvent, decodeChunk,
    bytesToInt16, toInt16, decodeSample, Except.map]

/-- C1 (amended): decoded playback entries are created in the order their
chunks arrive — arrival indices strictly increase and start times never
decrease along any event run whose arrival times are monotone — but each entry
begins immediately at its own arrival time (`source.start()` with no queue),
so entry N+1 can begin before entry N's output completes; no interruption is
needed for that. -/
theorem playback_immediate_start_ordered :
    (∀ (now : ℚ) (s : OrchState) (bytes : List ℕ) (samples : List ℚ),
        s.capturedMuted = false → s.audioContextsOpen = true → s.paused = false →
        decodeChunk bytes = .ok samples →
        handleEvent now s (.AudioChunk bytes) =
          { s with
              playbackEntries := s.playbackEntries ++
                [⟨s.playbackSeq, now, (samples.length : ℚ) / 24000⟩],
              playbackSeq := s.playbackSeq + 1 }) ∧
    (∀ (l : List (ℚ × SessionEvent)) (s : OrchState) (t : ℚ),
        List.Chain (fun a b => a ≤ b) t (l.map Prod.fst) → PlaybackInv t s →
        EntryOrdered (runEvents l s).playbackEntries) := by
  constructor
  · intro now s bytes samples hm ha hp hd
    simp [handleEvent, hm, ha, hp, hd]
  · exact runEvents_playbackInv

/-- C1 witness: the immediate-start equation for one concrete chunk and the
ordering of the entries of a concrete two-chunk run. -/
theorem playback_immediate_start_ordered_witness :
    handleEvent 0 unmutedActive (.AudioChunk [0, 0]) =
      { unmutedActive with
          playbackEntries := unmutedActive.playbackEntries ++
            [⟨unmutedActive.playbackSeq, 0, ((1 : ℕ) : ℚ) / 24000⟩],
          playbackSeq := unmutedActive.playbackSeq + 1 } ∧
    EntryOrdered (runEvents [(0, .AudioChunk [0, 0]), (1, .AudioChunk [0, 0])]
        unmutedActive).playbackEntries := by
  constructor
  · have hd : decodeChunk [0, 0] = .ok [0] := by
      simp [decodeChunk, bytesToInt16, toInt16, decodeSample, Except.map]
    exact playback_immediate_start_ordered.1 0 unmutedActive [0, 0] [0] rfl rfl rfl hd
  · refine playback_immediate_start_ordered.2 _ _ 0 ?_ ?_
    · simp [List.chain_cons]
    · refine ⟨?_, ?_⟩
      · show EntryOrdered ([] : List Entry)
        exact List.Pairwise.nil
      · intro x hx
        simp [unmutedActive, startMeeting, setMuted, initState] at hx
